import Mathlib

/-!
Verification development for the logs_dashboard backend.

The definitions below are a shallow embedding of the Python sources under
backend/app: the SQLAlchemy model (models/log.py), the Pydantic schemas
(schemas/log.py), the configuration constants (config.py) and the request
handlers (routers/logs.py).  The relational store is modelled as a list of
rows; timestamps are modelled as integers (an abstract linear time axis);
SQL queries become list filters, sorts and folds.
-/

namespace LogsDashboard

/-- Severity levels, from LogSeverity in models/log.py. -/
inductive LogSeverity where
  | DEBUG
  | INFO
  | WARNING
  | ERROR
  | CRITICAL
deriving DecidableEq, Repr

/-- String value of a severity member (the .value attribute of the Python enum). -/
def LogSeverity.value : LogSeverity → String
  | .DEBUG => "DEBUG"
  | .INFO => "INFO"
  | .WARNING => "WARNING"
  | .ERROR => "ERROR"
  | .CRITICAL => "CRITICAL"

/-- All five severity members, in declaration order. -/
def allSeverities : List LogSeverity :=
  [.DEBUG, .INFO, .WARNING, .ERROR, .CRITICAL]

/-- One row of the logs table (class Log in models/log.py).  Timestamps are
integers on an abstract time axis; metadata_json is the nullable Text column. -/
structure Log where
  id : Nat
  timestamp : Int
  message : String
  severity : LogSeverity
  source : String
  metadata_json : Option String
  created_at : Int
  updated_at : Int
deriving DecidableEq, Repr

/-- Error outcomes surfaced by the handlers: HTTP 404, 422 and 500. -/
inductive ApiError where
  | notFound
  | validationError
  | serverError
deriving DecidableEq, Repr

/-- Lower-cased character list of a string. -/
def lowerChars (s : String) : List Char :=
  s.data.map Char.toLower

/-- Lower-casing of a string (the Python str.lower method). -/
def lowerString (s : String) : String :=
  String.mk (lowerChars s)

/-- Containment of one character list in another. -/
def charsContain (hay needle : List Char) : Bool :=
  (List.range (hay.length + 1)).any (fun i => needle.isPrefixOf (hay.drop i))

/-- Model of the SQL clause field ILIKE with the pattern wrapped in percent
wildcards (routers/logs.py builds the pattern as a format string around the
parameter): case-insensitive containment of pat in field.  The model
treats the characters of pat literally; a user-supplied pat containing the
unescaped SQL wildcards percent or underscore is outside the model's
domain, and no theorem evaluates it on such a pattern. -/
def ilikeContains (field pat : String) : Bool :=
  charsContain (lowerChars field) (lowerChars pat)

/-- Calendar-day bucket of a timestamp, modelling cast(Log.timestamp, Date):
the floor of the instant to whole days of 86400 abstract seconds. -/
def dayOf (t : Int) : Int :=
  Int.fdiv t 86400

/-- Seconds in 30 days, modelling timedelta(days=30). -/
def thirtyDays : Int := 30 * 86400

-- ### Configuration constants (config.py)

def DEFAULT_PAGE_SIZE : Nat := 20

def MAX_PAGE_SIZE : Nat := 100

-- ### Query-parameter validation (FastAPI Query constraints in list_logs)

/-- FastAPI validation of the page query parameter: Query(1, ge=1). -/
def validate_page (page : Int) : Except ApiError Int :=
  if 1 ≤ page then .ok page else .error .validationError

/-- FastAPI validation of the page_size query parameter:
Query(DEFAULT_PAGE_SIZE, ge=1, le=MAX_PAGE_SIZE). -/
def validate_page_size (page_size : Int) : Except ApiError Int :=
  if 1 ≤ page_size ∧ page_size ≤ (MAX_PAGE_SIZE : Int) then .ok page_size
  else .error .validationError

-- ### List endpoint (GET /logs, list_logs in routers/logs.py)

/-- Filter parameters accepted by list_logs. -/
structure ListFilter where
  start_date : Option Int
  end_date : Option Int
  severity : Option LogSeverity
  source : Option String
  search : Option String
deriving DecidableEq, Repr

/-- Conjunction of the filter conditions built by list_logs (lines 80-95):
date bounds are inclusive comparisons on timestamp, severity is equality,
source and search are case-insensitive containment (ILIKE). -/
def listPred (f : ListFilter) (l : Log) : Bool :=
  (match f.start_date with
   | some d => decide (d ≤ l.timestamp)
   | none => true) &&
  (match f.end_date with
   | some d => decide (l.timestamp ≤ d)
   | none => true) &&
  (match f.severity with
   | some s => decide (l.severity = s)
   | none => true) &&
  (match f.source with
   | some s => ilikeContains l.source s
   | none => true) &&
  (match f.search with
   | some s => ilikeContains l.message s
   | none => true)

/-- Sortable columns: the mapped columns of the Log model. -/
inductive SortCol where
  | id
  | timestamp
  | message
  | severity
  | source
  | metadata_json
  | created_at
  | updated_at
deriving DecidableEq, Repr

/-- An attribute of the Log class reachable by getattr: either a mapped
column or a non-column attribute (class-body constants and methods,
SQLAlchemy mapping machinery, declarative-base and Python object/type
protocol attributes), which is no valid sort column. -/
inductive LogAttr where
  | col (c : SortCol)
  | nonColumn (name : String)
deriving DecidableEq, Repr

/-- Names of non-column attributes of the Log class: the class-body
attributes of models/log.py (the table name constant and the repr method),
the attributes generated by the SQLAlchemy mapping, the declarative base's
attributes, and the attributes of the Python object and type protocols.
The enumeration models the portion of dir(Log) the development exercises;
every public (non-underscore) attribute of the class other than the mapped
columns is one of metadata, registry and mro, and every further attribute
name begins with an underscore. -/
def nonColumnAttrNames : List String :=
  ["__tablename__", "__repr__",
   "metadata", "registry", "mro",
   "__table__", "__mapper__", "_sa_class_manager",
   "__init__", "__new__", "__class__", "__dict__", "__doc__",
   "__module__", "__weakref__", "__annotations__", "__hash__",
   "__eq__", "__ne__", "__lt__", "__le__", "__gt__", "__ge__",
   "__str__", "__setattr__", "__delattr__", "__getattribute__",
   "__dir__", "__format__", "__init_subclass__", "__subclasshook__",
   "__sizeof__", "__reduce__", "__reduce_ex__",
   "__name__", "__qualname__", "__bases__", "__base__", "__mro__",
   "__subclasses__", "__call__"]

/-- The public (non-underscore) non-column attribute names of the Log
class: metadata and registry from the declarative base and mro from the
type protocol.  All other non-column attribute names begin with an
underscore. -/
def nonColumnPublicNames : List String := ["metadata", "registry", "mro"]

/-- Whether a string begins with an underscore character. -/
def startsWithUnderscore (s : String) : Bool :=
  match s.data with
  | c :: _ => c = '_'
  | [] => false

/-- Model of getattr(Log, sort_by, Log.timestamp) at line 102 of
routers/logs.py: a string naming an attribute of the class resolves to
that attribute; only a string naming no attribute falls back to the
timestamp column.  The non-column attribute set is the enumeration above;
a string outside the mapped columns and that enumeration is treated as
naming no attribute (faithful for every string without a leading
underscore, by the characterization proved below). -/
def getattrLog (sort_by : String) : LogAttr :=
  if sort_by = "id" then .col .id
  else if sort_by = "timestamp" then .col .timestamp
  else if sort_by = "message" then .col .message
  else if sort_by = "severity" then .col .severity
  else if sort_by = "source" then .col .source
  else if sort_by = "metadata_json" then .col .metadata_json
  else if sort_by = "created_at" then .col .created_at
  else if sort_by = "updated_at" then .col .updated_at
  else if sort_by ∈ nonColumnAttrNames then .nonColumn sort_by
  else .col .timestamp

/-- Names of the mapped entry fields (the columns of the model). -/
def isFieldName (s : String) : Bool :=
  s = "id" || s = "timestamp" || s = "message" || s = "severity" ||
  s = "source" || s = "metadata_json" || s = "created_at" || s = "updated_at"

/-- Index of a severity in its Postgres enum declaration order, which is the
order ORDER BY uses for a native enum column. -/
def sevIdx : LogSeverity → Nat
  | .DEBUG => 0
  | .INFO => 1
  | .WARNING => 2
  | .ERROR => 3
  | .CRITICAL => 4

/-- Column-wise non-strict order on rows used by ORDER BY: numbers and
instants by their order, strings lexicographically, the nullable column
with null last in ascending order. -/
def colLe (c : SortCol) (a b : Log) : Bool :=
  match c with
  | .id => decide (a.id ≤ b.id)
  | .timestamp => decide (a.timestamp ≤ b.timestamp)
  | .message => decide (¬ b.message < a.message)
  | .severity => decide (sevIdx a.severity ≤ sevIdx b.severity)
  | .source => decide (¬ b.source < a.source)
  | .metadata_json =>
      match a.metadata_json, b.metadata_json with
      | some x, some y => decide (¬ y < x)
      | some _, none => true
      | none, some _ => false
      | none, none => true
  | .created_at => decide (a.created_at ≤ b.created_at)
  | .updated_at => decide (a.updated_at ≤ b.updated_at)

/-- Model of sort_order.lower() == "asc" at line 103 of routers/logs.py. -/
def sortIsAsc (sort_order : String) : Bool :=
  lowerString sort_order = "asc"

/-- Row order used by the list query for a resolved column and direction. -/
def listSortRel (c : SortCol) (ascending : Bool) (a b : Log) : Prop :=
  if ascending then colLe c a b = true else colLe c b a = true

instance (c : SortCol) (ascending : Bool) :
    DecidableRel (listSortRel c ascending) := by
  unfold listSortRel
  infer_instance

/-- Response shape of the list endpoint (LogListResponse in schemas/log.py). -/
structure ListResult where
  items : List Log
  total : Nat
  page : Nat
  page_size : Nat
  total_pages : Nat
deriving DecidableEq, Repr

/-- The list endpoint (GET /logs): one conditions list feeds both the count
query and the page query; the page is the slice at offset
(page-1)*page_size of length page_size of the ordered filtered rows;
total_pages is (total + page_size - 1) / page_size.  A sort_by string that
resolves to a non-column attribute of the class cannot be compiled into an
ORDER BY term and surfaces as a server error. -/
def list_logs (f : ListFilter) (page page_size : Nat)
    (sort_by sort_order : String) (store : List Log) :
    Except ApiError ListResult :=
  let filtered := store.filter (listPred f)
  let total := filtered.length
  match getattrLog sort_by with
  | .col c =>
      let sorted := List.insertionSort (listSortRel c (sortIsAsc sort_order)) filtered
      let offset := (page - 1) * page_size
      let items := (sorted.drop offset).take page_size
      .ok { items := items, total := total, page := page,
            page_size := page_size,
            total_pages := (total + page_size - 1) / page_size }
  | _ => .error .serverError

-- ### Stats endpoint (GET /logs/stats, get_log_stats in routers/logs.py)

/-- Filter parameters accepted by get_log_stats: source is compared by
equality here, not by containment. -/
structure StatsFilter where
  start_date : Option Int
  end_date : Option Int
  source : Option String
deriving DecidableEq, Repr

/-- Conjunction of the conditions built by get_log_stats (lines 154-160). -/
def statsPred (f : StatsFilter) (l : Log) : Bool :=
  (match f.start_date with
   | some d => decide (d ≤ l.timestamp)
   | none => true) &&
  (match f.end_date with
   | some d => decide (l.timestamp ≤ d)
   | none => true) &&
  (match f.source with
   | some s => decide (l.source = s)
   | none => true)

/-- Whether the conditions list of get_log_stats is nonempty: true when any
of start_date, end_date or source was supplied. -/
def statsHasConditions (f : StatsFilter) : Bool :=
  f.start_date.isSome || f.end_date.isSome || f.source.isSome

/-- Descending-by-count order used for the breakdown rows
(order_by(desc("count"))); ties are implementation-defined. -/
def countDescRel (a b : String × Nat) : Prop := b.2 ≤ a.2

instance : DecidableRel countDescRel := by
  unfold countDescRel
  infer_instance

/-- GROUP BY Log.severity with count per group, ordered by descending
count: only severities present in the rows produce a group. -/
def severityBreakdownOf (ls : List Log) : List (String × Nat) :=
  let present := allSeverities.filter (fun s => ls.any (fun l => decide (l.severity = s)))
  List.insertionSort countDescRel
    (present.map (fun s => (s.value, ls.countP (fun l => decide (l.severity = s)))))

/-- GROUP BY Log.source with count per group, ordered by descending count
and truncated to the top 10. -/
def sourceBreakdownOf (ls : List Log) : List (String × Nat) :=
  let srcs := (ls.map (fun l => l.source)).dedup
  (List.insertionSort countDescRel
    (srcs.map (fun s => (s, ls.countP (fun l => decide (l.source = s)))))).take 10

/-- Ascending order on day buckets (order_by("date")). -/
def dayAscRel (a b : Int × Nat) : Prop := a.1 ≤ b.1

instance : DecidableRel dayAscRel := by
  unfold dayAscRel
  infer_instance

/-- GROUP BY cast(timestamp, Date) with count per day, ordered ascending by
date: only days present in the rows produce a group. -/
def trendSeriesOf (ls : List Log) : List (Int × Nat) :=
  let days := (ls.map (fun l => dayOf l.timestamp)).dedup
  List.insertionSort dayAscRel
    (days.map (fun d => (d, ls.countP (fun l => decide (dayOf l.timestamp = d)))))

/-- The set of rows the stats trend query ranges over (lines 199-212): the
filter conditions when the conditions list is nonempty, otherwise the
default restriction to the last 30 days before now. -/
def statsTrendBase (now : Int) (f : StatsFilter) (store : List Log) : List Log :=
  if statsHasConditions f then store.filter (statsPred f)
  else store.filter (fun l => decide (now - thirtyDays ≤ l.timestamp))

/-- Response shape of the stats endpoint (LogStats in schemas/log.py);
date_range echoes the supplied bounds. -/
structure StatsResult where
  total_logs : Nat
  severity_breakdown : List (String × Nat)
  source_breakdown : List (String × Nat)
  trend_data : List (Int × Nat)
  date_range : Option Int × Option Int
deriving DecidableEq, Repr

/-- The stats endpoint (GET /logs/stats): total, severity breakdown and
source breakdown are computed over the filtered rows; the trend series is
computed over statsTrendBase; now models datetime.utcnow() at call time. -/
def get_log_stats (now : Int) (f : StatsFilter) (store : List Log) : StatsResult :=
  let filtered := store.filter (statsPred f)
  { total_logs := filtered.length,
    severity_breakdown := severityBreakdownOf filtered,
    source_breakdown := sourceBreakdownOf filtered,
    trend_data := trendSeriesOf (statsTrendBase now f store),
    date_range := (f.start_date, f.end_date) }

-- ### Trend endpoint (GET /logs/trend, get_log_trend in routers/logs.py)

/-- Filter parameters accepted by get_log_trend: severity by equality,
source by equality. -/
structure TrendFilter where
  start_date : Option Int
  end_date : Option Int
  severity : Option LogSeverity
  source : Option String
deriving DecidableEq, Repr

/-- Conjunction of the conditions built by get_log_trend (lines 247-260):
the supplied filters, plus the last-30-days restriction appended exactly
when neither date bound was supplied. -/
def trendPred (now : Int) (f : TrendFilter) (l : Log) : Bool :=
  (match f.start_date with
   | some d => decide (d ≤ l.timestamp)
   | none => true) &&
  (match f.end_date with
   | some d => decide (l.timestamp ≤ d)
   | none => true) &&
  (match f.severity with
   | some s => decide (l.severity = s)
   | none => true) &&
  (match f.source with
   | some s => decide (l.source = s)
   | none => true) &&
  (if f.start_date.isNone && f.end_date.isNone
   then decide (now - thirtyDays ≤ l.timestamp)
   else true)

/-- One row of the trend response (LogTrend in schemas/log.py): the day
bucket, its count, and the severity label when grouped by severity. -/
structure TrendRow where
  date : Int
  count : Nat
  severity : Option String
deriving DecidableEq, Repr

/-- Ascending order on (day, severity) group keys: the query orders by date
only; within a date, group order is implementation-defined and modelled by
enum index. -/
def daySevAscRel (a b : Int × LogSeverity) : Prop :=
  a.1 < b.1 ∨ (a.1 = b.1 ∧ sevIdx a.2 ≤ sevIdx b.2)

instance : DecidableRel daySevAscRel := by
  unfold daySevAscRel
  infer_instance

/-- The trend endpoint (GET /logs/trend): daily counts over the filtered
rows, grouped per (day, severity) when group_by_severity is set; a group
with no rows produces no output row. -/
def get_log_trend (now : Int) (f : TrendFilter) (group_by_severity : Bool)
    (store : List Log) : List TrendRow :=
  let filtered := store.filter (trendPred now f)
  if group_by_severity then
    let keys := (filtered.map (fun l => (dayOf l.timestamp, l.severity))).dedup
    (List.insertionSort daySevAscRel keys).map
      (fun k => { date := k.1,
                  count := filtered.countP
                    (fun l => decide (dayOf l.timestamp = k.1 ∧ l.severity = k.2)),
                  severity := some k.2.value })
  else
    (trendSeriesOf filtered).map
      (fun p => { date := p.1, count := p.2, severity := none })

-- ### Export endpoint (GET /logs/export, export_logs_csv in routers/logs.py)

/-- Filter parameters accepted by export_logs_csv: severity by equality,
source by equality. -/
structure ExportFilter where
  start_date : Option Int
  end_date : Option Int
  severity : Option LogSeverity
  source : Option String
deriving DecidableEq, Repr

/-- Conjunction of the conditions built by export_logs_csv (lines 310-319). -/
def exportPred (f : ExportFilter) (l : Log) : Bool :=
  (match f.start_date with
   | some d => decide (d ≤ l.timestamp)
   | none => true) &&
  (match f.end_date with
   | some d => decide (l.timestamp ≤ d)
   | none => true) &&
  (match f.severity with
   | some s => decide (l.severity = s)
   | none => true) &&
  (match f.source with
   | some s => decide (l.source = s)
   | none => true)

/-- Descending-timestamp order of the export query (order_by(desc(timestamp))). -/
def tsDescRel (a b : Log) : Prop := b.timestamp ≤ a.timestamp

instance : DecidableRel tsDescRel := by
  unfold tsDescRel
  infer_instance

/-- ISO-8601 rendering of an abstract instant, modelled as an injective
rendering of the integer time axis. -/
def isoformat (t : Int) : String := toString t

/-- The CSV header record written first by export_logs_csv (line 332). -/
def csvHeader : List String := ["ID", "Timestamp", "Severity", "Source", "Message"]

/-- One CSV data record per exported row (lines 334-341). -/
def logCsvRow (l : Log) : List String :=
  [toString l.id, isoformat l.timestamp, l.severity.value, l.source, l.message]

/-- The export endpoint (GET /logs/export): CSV records of the filtered
rows ordered by descending timestamp, preceded by the header record. -/
def export_logs_csv (f : ExportFilter) (store : List Log) : List (List String) :=
  let sorted := List.insertionSort tsDescRel (store.filter (exportPred f))
  csvHeader :: sorted.map logCsvRow

-- ### Single-entry CRUD (get_log, update_log, delete_log in routers/logs.py)

/-- The get endpoint (GET /logs/id): the row with the requested id, or a
404 error when none exists. -/
def get_log (store : List Log) (log_id : Nat) : Except ApiError Log :=
  match store.find? (fun l => decide (l.id = log_id)) with
  | some l => .ok l
  | none => .error .notFound

/-- Update payload (LogUpdate in schemas/log.py).  The schema declares
exactly these four optional fields; the outer Option is the Pydantic
per-field presence flag observed through model_dump(exclude_unset=True):
none means the field was absent from the request body.  For metadata_json
the inner Option is the nullable column value, so an explicitly supplied
null is distinguishable from an absent field. -/
structure LogUpdate where
  message : Option String
  severity : Option LogSeverity
  source : Option String
  metadata_json : Option (Option String)
deriving DecidableEq, Repr

/-- Whether any field is present in the payload: with no present field the
update loop assigns nothing and the flush issues no UPDATE. -/
def hasSetFields (u : LogUpdate) : Bool :=
  u.message.isSome || u.severity.isSome || u.source.isSome || u.metadata_json.isSome

/-- Application of the update loop of update_log (lines 389-391) to one
row: each present field overwrites the column, absent fields are left
untouched, and the updated_at column is set by the onupdate hook when an
UPDATE is issued. -/
def applyUpdate (now : Int) (u : LogUpdate) (l : Log) : Log :=
  if hasSetFields u then
    { l with
      message := u.message.getD l.message,
      severity := u.severity.getD l.severity,
      source := u.source.getD l.source,
      metadata_json := u.metadata_json.getD l.metadata_json,
      updated_at := now }
  else l

/-- The update endpoint (PUT /logs/id): 404 when the id does not exist,
otherwise the updated row is returned and the store holds it in place of
the old row. -/
def update_log (now : Int) (store : List Log) (log_id : Nat) (u : LogUpdate) :
    Except ApiError (Log × List Log) :=
  match store.find? (fun l => decide (l.id = log_id)) with
  | none => .error .notFound
  | some l =>
      let l2 := applyUpdate now u l
      .ok (l2, store.map (fun x => if x.id = log_id then l2 else x))

/-- The delete endpoint (DELETE /logs/id): 404 when the id does not exist,
otherwise the row is hard-removed (DELETE WHERE id = log_id) and no content
is returned beyond the new store state. -/
def delete_log (store : List Log) (log_id : Nat) : Except ApiError (List Log) :=
  match store.find? (fun l => decide (l.id = log_id)) with
  | none => .error .notFound
  | some _ => .ok (store.filter (fun l => !(decide (l.id = log_id))))

-- ### Auxiliary definitions for the development

/-- Python attribute name of each mapped column. -/
def colName : SortCol → String
  | .id => "id"
  | .timestamp => "timestamp"
  | .message => "message"
  | .severity => "severity"
  | .source => "source"
  | .metadata_json => "metadata_json"
  | .created_at => "created_at"
  | .updated_at => "updated_at"

instance : IsTotal (Int × Nat) dayAscRel :=
  ⟨fun a b => le_total a.1 b.1⟩

instance : IsTrans (Int × Nat) dayAscRel :=
  ⟨fun _ _ _ hab hbc => le_trans hab hbc⟩

-- ### Sample rows used by concrete witnesses and counterexamples

/-- A row with source svc-a, as in the worked example of the spec. -/
def svcLog : Log :=
  { id := 1, timestamp := 100, message := "boot", severity := .INFO,
    source := "svc-a", metadata_json := none, created_at := 0, updated_at := 0 }

/-- A row whose timestamp lies well before the 30-day window of a call at
time 8640000 (day 100). -/
def oldLog : Log :=
  { id := 2, timestamp := 0, message := "old event", severity := .ERROR,
    source := "a", metadata_json := none, created_at := 0, updated_at := 0 }

/-- A row inside the 30-day window of a call at time 8640000. -/
def recentLog : Log :=
  { id := 3, timestamp := 8600000, message := "recent event", severity := .DEBUG,
    source := "a", metadata_json := none, created_at := 0, updated_at := 0 }

/-- The row svcLog after an update at time 50 whose payload carries only a
new message. -/
def svcLogAfter : Log :=
  { id := 1, timestamp := 100, message := "boot2", severity := .INFO,
    source := "svc-a", metadata_json := none, created_at := 0, updated_at := 50 }

/-- The row svcLog after an update at time 50 whose payload carries only
severity CRITICAL. -/
def svcLogCrit : Log :=
  { id := 1, timestamp := 100, message := "boot", severity := .CRITICAL,
    source := "svc-a", metadata_json := none, created_at := 0, updated_at := 50 }

-- ### Shared lemmas

theorem filter_false_nil {α : Type} (p : α → Bool) :
    ∀ ls : List α, (∀ l ∈ ls, p l = false) → ls.filter p = []
  | [], _ => rfl
  | a :: as, h => by
    have ha := h a (List.mem_cons_self a as)
    simp [List.filter_cons, ha,
      filter_false_nil p as (fun l hl => h l (List.mem_cons_of_mem a hl))]

theorem listPred_reversed {s e : Int} (h : e < s) (sev : Option LogSeverity)
    (src sch : Option String) (l : Log) :
    listPred ⟨some s, some e, sev, src, sch⟩ l = false := by
  have h1 : ¬ s ≤ l.timestamp ∨ ¬ l.timestamp ≤ e := by omega
  rcases h1 with h1 | h1 <;> simp [listPred, h1]

theorem statsPred_reversed {s e : Int} (h : e < s) (src : Option String) (l : Log) :
    statsPred ⟨some s, some e, src⟩ l = false := by
  have h1 : ¬ s ≤ l.timestamp ∨ ¬ l.timestamp ≤ e := by omega
  rcases h1 with h1 | h1 <;> simp [statsPred, h1]

theorem trendPred_reversed {s e : Int} (h : e < s) (now : Int)
    (sev : Option LogSeverity) (src : Option String) (l : Log) :
    trendPred now ⟨some s, some e, sev, src⟩ l = false := by
  have h1 : ¬ s ≤ l.timestamp ∨ ¬ l.timestamp ≤ e := by omega
  rcases h1 with h1 | h1 <;> simp [trendPred, h1]

theorem exportPred_reversed {s e : Int} (h : e < s)
    (sev : Option LogSeverity) (src : Option String) (l : Log) :
    exportPred ⟨some s, some e, sev, src⟩ l = false := by
  have h1 : ¬ s ≤ l.timestamp ∨ ¬ l.timestamp ≤ e := by omega
  rcases h1 with h1 | h1 <;> simp [exportPred, h1]

theorem applyUpdate_timestamp (now : Int) (u : LogUpdate) (l : Log) :
    (applyUpdate now u l).timestamp = l.timestamp := by
  unfold applyUpdate
  split <;> rfl

-- ### Claim C3

/-- C3: counterexample.  The claim asserts the update operation can modify
an entry's timestamp.  It cannot: no update outcome ever changes the stored
timestamp of the entry it found, because LogUpdate carries no timestamp
field. -/
theorem C3_counterexample :
    ¬ ∃ (now : Int) (store : List Log) (log_id : Nat) (u : LogUpdate)
        (l l2 : Log) (store2 : List Log),
      store.find? (fun x => decide (x.id = log_id)) = some l ∧
      update_log now store log_id u = .ok (l2, store2) ∧
      l2.timestamp ≠ l.timestamp := by
  rintro ⟨now, store, log_id, u, l, l2, store2, hfind, hupd, hne⟩
  apply hne
  unfold update_log at hupd
  rw [hfind] at hupd
  simp only [Except.ok.injEq, Prod.mk.injEq] at hupd
  rw [← hupd.1]
  exact applyUpdate_timestamp now u l

/-- C3: amended claim.  The update operation cannot modify an entry's
timestamp: the update payload carries only message, severity, source and
metadataJson, so the entry returned by a successful update keeps the prior
timestamp (and id and createdAt) of the entry that was found. -/
theorem C3_amended (now : Int) (store : List Log) (log_id : Nat) (u : LogUpdate)
    (l l2 : Log) (store2 : List Log)
    (hfind : store.find? (fun x => decide (x.id = log_id)) = some l)
    (hupd : update_log now store log_id u = .ok (l2, store2)) :
    l2.timestamp = l.timestamp ∧ l2.id = l.id ∧ l2.created_at = l.created_at := by
  unfold update_log at hupd
  rw [hfind] at hupd
  simp only [Except.ok.injEq, Prod.mk.injEq] at hupd
  rw [← hupd.1]
  unfold applyUpdate
  split <;> exact ⟨rfl, rfl, rfl⟩

/-- C3: witness for the amended claim at a concrete update. -/
theorem C3_witness :
    update_log 50 [svcLog] 1
        { message := some "boot2", severity := none, source := none,
          metadata_json := none } = .ok (svcLogAfter, [svcLogAfter]) ∧
    svcLogAfter.timestamp = svcLog.timestamp := by
  have h := C3_amended 50 [svcLog] 1
    { message := some "boot2", severity := none, source := none,
      metadata_json := none } svcLog svcLogAfter [svcLogAfter] rfl rfl
  exact ⟨rfl, h.1⟩

-- ### Claim C5

/-- C5: counterexample.  The claim asserts an out-of-range pageSize is
clamped into [1,100] and the request succeeds; the handler instead rejects
it as a validation error: 101 is not clamped to 100 and 0 is not clamped
to 1. -/
theorem C5_counterexample :
    validate_page_size 101 = .error .validationError ∧
    validate_page_size 101 ≠ .ok 100 ∧
    validate_page_size 0 = .error .validationError ∧
    validate_page_size 0 ≠ .ok 1 := by
  refine ⟨by norm_num [validate_page_size, MAX_PAGE_SIZE], ?_, rfl, ?_⟩ <;>
    · intro h
      norm_num [validate_page_size, MAX_PAGE_SIZE] at h
      exact Except.noConfusion h

/-- C5: amended claim.  A pageSize outside [1,100] is rejected as a
validation error, exactly like a page below 1; in-range values pass
validation unchanged (no clamping happens anywhere). -/
theorem C5_amended (p ps : Int) :
    (validate_page p = .ok p ↔ 1 ≤ p) ∧
    (validate_page p = .error .validationError ↔ p < 1) ∧
    (validate_page_size ps = .ok ps ↔ 1 ≤ ps ∧ ps ≤ 100) ∧
    (validate_page_size ps = .error .validationError ↔ ps < 1 ∨ 100 < ps) := by
  unfold validate_page validate_page_size MAX_PAGE_SIZE
  refine ⟨?_, ?_, ?_, ?_⟩ <;> split <;> simp_all <;> omega

/-- C5: witness for the amended claim at concrete in-range and
out-of-range values. -/
theorem C5_witness :
    validate_page 1 = .ok 1 ∧
    validate_page_size 100 = .ok 100 ∧
    validate_page_size 101 = .error .validationError := by
  refine ⟨(C5_amended 1 100).1.mpr (by norm_num),
          (C5_amended 1 100).2.2.1.mpr (by norm_num),
          (C5_amended 1 101).2.2.2.mpr (by norm_num)⟩

-- ### Claim C9

/-- C9: get, update and delete signal NotFound exactly when no entry with
the requested id exists (errors return no new store state, so the store is
unchanged), and after a successful delete a get on the same id signals
NotFound. -/
theorem C9_not_found (store : List Log) (log_id : Nat) (now : Int) (u : LogUpdate) :
    (get_log store log_id = .error .notFound ↔ ∀ l ∈ store, l.id ≠ log_id) ∧
    (delete_log store log_id = .error .notFound ↔ ∀ l ∈ store, l.id ≠ log_id) ∧
    (update_log now store log_id u = .error .notFound ↔ ∀ l ∈ store, l.id ≠ log_id) ∧
    (∀ store2, delete_log store log_id = .ok store2 →
      get_log store2 log_id = .error .notFound) := by
  have hnone : store.find? (fun x => decide (x.id = log_id)) = none ↔
      ∀ l ∈ store, l.id ≠ log_id := by
    rw [List.find?_eq_none]
    simp
  rcases hf : store.find? (fun x => decide (x.id = log_id)) with _ | l
  · have hall := hnone.mp hf
    refine ⟨?_, ?_, ?_, ?_⟩ <;>
      simp [get_log, delete_log, update_log, hf, hall] <;> exact hall
  · have hmem := List.mem_of_find?_eq_some hf
    have hid : l.id = log_id := by
      have hp := List.find?_some hf
      simpa using hp
    have hnotall : ¬ (∀ x ∈ store, x.id ≠ log_id) := fun hcon => hcon l hmem hid
    refine ⟨?_, ?_, ?_, ?_⟩
    · simp [get_log, hf, hnotall]
    · simp [delete_log, hf, hnotall]
    · simp [update_log, hf, hnotall]
    · intro store2 hdel
      unfold delete_log at hdel
      rw [hf] at hdel
      simp only [Except.ok.injEq] at hdel
      unfold get_log
      have hfind2 : store2.find? (fun x => decide (x.id = log_id)) = none := by
        rw [List.find?_eq_none]
        intro a ha
        rw [← hdel] at ha
        have := (List.mem_filter.mp ha).2
        simpa using this
      rw [hfind2]

/-- C9: witness — NotFound on a missing id, and get after delete at a
concrete store. -/
theorem C9_witness :
    get_log [svcLog] 99 = .error .notFound ∧
    get_log [] 1 = .error .notFound := by
  refine ⟨(C9_not_found [svcLog] 99 0
            { message := none, severity := none, source := none,
              metadata_json := none }).1.mpr (by decide), ?_⟩
  exact (C9_not_found [svcLog] 1 0
    { message := none, severity := none, source := none,
      metadata_json := none }).2.2.2 [] rfl

-- ### Claim C4

/-- C4: counterexample.  The claim asserts that every sortBy string that is
not an entry field name falls back to the timestamp column and that only
the exact string asc sorts ascending.  Both parts fail: the class attribute
name written in the model file resolves to a non-column attribute instead
of falling back, and the string ASC sorts ascending because the comparison
lower-cases its input. -/
theorem C4_counterexample :
    sortIsAsc "ASC" = true ∧ "ASC" ≠ "asc" ∧
    isFieldName "__tablename__" = false ∧
    getattrLog "__tablename__" ≠ LogAttr.col .timestamp := by
  decide

theorem nonColumnAttr_underscore_or_public :
    ∀ x ∈ nonColumnAttrNames,
      startsWithUnderscore x = true ∨ x ∈ nonColumnPublicNames := by
  decide

/-- C4: amended claim.  A sortBy string naming a mapped entry field is used
as the sort column.  The getattr lookup falls back to the timestamp column
only for strings naming no attribute of the Log class: besides the mapped
columns, the only attribute names of the class without a leading
underscore are metadata and registry (from the declarative base) and mro
(from the type protocol), so every other non-field name without a leading
underscore falls back.  A string naming a non-column attribute of the
class (such as the table name constant in the class body, or the
declarative base's metadata) instead resolves to that attribute, which is
no valid sort column, and the list request fails with a server error
rather than sorting by timestamp.  sortOrder sorts ascending exactly when
its lower-cased form equals asc, and descending otherwise. -/
theorem C4_amended (s o : String) :
    (isFieldName s = true → ∃ c, getattrLog s = .col c ∧ colName c = s) ∧
    (isFieldName s = false → startsWithUnderscore s = false →
      s ∉ nonColumnPublicNames → getattrLog s = .col .timestamp) ∧
    getattrLog "__tablename__" = .nonColumn "__tablename__" ∧
    getattrLog "metadata" = .nonColumn "metadata" ∧
    (∀ f page page_size sort_order store,
      list_logs f page page_size "metadata" sort_order store
        = .error .serverError) ∧
    (sortIsAsc o = true ↔ lowerString o = "asc") := by
  refine ⟨?_, ?_, by decide, by decide, ?_, by simp [sortIsAsc]⟩
  · intro h
    simp only [isFieldName, Bool.or_eq_true, decide_eq_true_eq] at h
    rcases h with ((((((h | h) | h) | h) | h) | h) | h) | h <;> subst h <;>
      first
        | exact ⟨.id, rfl, rfl⟩
        | exact ⟨.timestamp, rfl, rfl⟩
        | exact ⟨.message, rfl, rfl⟩
        | exact ⟨.severity, rfl, rfl⟩
        | exact ⟨.source, rfl, rfl⟩
        | exact ⟨.metadata_json, rfl, rfl⟩
        | exact ⟨.created_at, rfl, rfl⟩
        | exact ⟨.updated_at, rfl, rfl⟩
  · intro hf hu hp
    have hmem : s ∉ nonColumnAttrNames := by
      intro hmem
      rcases nonColumnAttr_underscore_or_public s hmem with h | h
      · rw [h] at hu
        exact absurd hu (by simp)
      · exact hp h
    unfold getattrLog
    split_ifs <;> first | rfl | simp_all [isFieldName]
  · intro f page page_size sort_order store
    have hres : getattrLog "metadata" = .nonColumn "metadata" := by decide
    simp only [list_logs, hres]

/-- C4: witness — a field name is used as the sort column, a name outside
the class's attributes falls back to timestamp, a list request sorting by
the non-column attribute metadata fails with a server error, and asc sorts
ascending. -/
theorem C4_witness :
    getattrLog "severity" = LogAttr.col .severity ∧
    getattrLog "bogus" = LogAttr.col .timestamp ∧
    list_logs
      { start_date := none, end_date := none, severity := none,
        source := none, search := none } 1 20 "metadata" "desc" [svcLog]
      = .error .serverError ∧
    sortIsAsc "asc" = true := by
  have h1 := (C4_amended "severity" "asc").1 (by decide)
  have h2 := (C4_amended "bogus" "asc").2.1 (by decide) (by decide) (by decide)
  have h3 := (C4_amended "bogus" "asc").2.2.2.2.1
    { start_date := none, end_date := none, severity := none,
      source := none, search := none } 1 20 "desc" [svcLog]
  have h4 := (C4_amended "bogus" "asc").2.2.2.2.2.mpr (by decide)
  obtain ⟨c, hc, hname⟩ := h1
  refine ⟨?_, h2, h3, h4⟩
  cases c <;> simp_all [colName]

-- ### Claim C7

/-- C7: only fields present in the update payload are applied; absent
fields keep their prior values (never overwritten with null), and when the
payload carries a severity the stored severity becomes it and updatedAt
does not move backwards under a monotone clock. -/
theorem C7_update_frame (now : Int) (store store2 : List Log) (log_id : Nat)
    (u : LogUpdate) (l l2 : Log) (sv : LogSeverity)
    (hfind : store.find? (fun x => decide (x.id = log_id)) = some l)
    (hupd : update_log now store log_id u = .ok (l2, store2)) :
    (u.message = none → l2.message = l.message) ∧
    (u.source = none → l2.source = l.source) ∧
    (u.metadata_json = none → l2.metadata_json = l.metadata_json) ∧
    (u.severity = some sv →
      l2.severity = sv ∧ (l.updated_at ≤ now → l.updated_at ≤ l2.updated_at)) := by
  unfold update_log at hupd
  rw [hfind] at hupd
  simp only [Except.ok.injEq, Prod.mk.injEq] at hupd
  obtain ⟨h2, _⟩ := hupd
  subst h2
  refine ⟨?_, ?_, ?_, ?_⟩
  · intro hm
    unfold applyUpdate
    split <;> simp [hm]
  · intro hs
    unfold applyUpdate
    split <;> simp [hs]
  · intro hj
    unfold applyUpdate
    split <;> simp [hj]
  · intro hv
    have hset : hasSetFields u = true := by simp [hasSetFields, hv]
    unfold applyUpdate
    rw [if_pos hset]
    exact ⟨by simp [hv], fun hle => by simpa using hle⟩

/-- C7: witness — a payload carrying only severity CRITICAL changes
severity, leaves message, source and metadataJson unchanged, and advances
updatedAt. -/
theorem C7_witness :
    update_log 50 [svcLog] 1
      { message := none, severity := some .CRITICAL, source := none,
        metadata_json := none } = .ok (svcLogCrit, [svcLogCrit]) ∧
    svcLogCrit.message = svcLog.message ∧
    svcLogCrit.source = svcLog.source ∧
    svcLogCrit.metadata_json = svcLog.metadata_json ∧
    svcLogCrit.severity = .CRITICAL ∧
    svcLog.updated_at ≤ svcLogCrit.updated_at := by
  have h := C7_update_frame 50 [svcLog] [svcLogCrit] 1
    { message := none, severity := some .CRITICAL, source := none,
      metadata_json := none } svcLog svcLogCrit .CRITICAL rfl rfl
  exact ⟨rfl, h.1 rfl, h.2.1 rfl, h.2.2.1 rfl, (h.2.2.2 rfl).1,
    (h.2.2.2 rfl).2 (by decide)⟩

-- ### Claim C8

/-- C8: a date range with startDate after endDate is accepted by list,
stats, trend and export; each returns an empty result (no items and zero
total, zero stats with empty breakdowns and series, an empty trend series,
a header-only CSV) rather than an error. -/
theorem C8_reversed_dates (now s e : Int) (store : List Log)
    (sev : Option LogSeverity) (src sch : Option String)
    (page page_size : Nat) (sort_by sort_order : String) (c : SortCol)
    (gbs : Bool) (hd : e < s) (hsort : getattrLog sort_by = .col c) :
    (∃ r, list_logs ⟨some s, some e, sev, src, sch⟩ page page_size sort_by
        sort_order store = .ok r ∧ r.items = [] ∧ r.total = 0) ∧
    get_log_stats now ⟨some s, some e, src⟩ store =
      { total_logs := 0, severity_breakdown := [], source_breakdown := [],
        trend_data := [], date_range := (some s, some e) } ∧
    get_log_trend now ⟨some s, some e, sev, src⟩ gbs store = [] ∧
    export_logs_csv ⟨some s, some e, sev, src⟩ store = [csvHeader] := by
  have hl : store.filter (listPred ⟨some s, some e, sev, src, sch⟩) = [] :=
    filter_false_nil _ _ (fun l _ => listPred_reversed hd sev src sch l)
  have hst : store.filter (statsPred ⟨some s, some e, src⟩) = [] :=
    filter_false_nil _ _ (fun l _ => statsPred_reversed hd src l)
  have htr : store.filter (trendPred now ⟨some s, some e, sev, src⟩) = [] :=
    filter_false_nil _ _ (fun l _ => trendPred_reversed hd now sev src l)
  have hex : store.filter (exportPred ⟨some s, some e, sev, src⟩) = [] :=
    filter_false_nil _ _ (fun l _ => exportPred_reversed hd sev src l)
  have hbase : statsTrendBase now ⟨some s, some e, src⟩ store = [] := by
    unfold statsTrendBase statsHasConditions
    simpa using hst
  refine ⟨?_, ?_, ?_, ?_⟩
  · simp only [list_logs, hsort, hl]
    exact ⟨_, rfl, by simp, rfl⟩
  · simp only [get_log_stats, hst, hbase]
    rfl
  · simp only [get_log_trend, htr]
    cases gbs <;> rfl
  · simp only [export_logs_csv, hex]
    rfl

/-- C8: witness at a concrete reversed range over a nonempty store. -/
theorem C8_witness :
    (∃ r, list_logs ⟨some 1, some 0, none, none, none⟩ 1 20 "timestamp"
        "desc" [svcLog] = .ok r ∧ r.items = [] ∧ r.total = 0) ∧
    get_log_stats 0 ⟨some 1, some 0, none⟩ [svcLog] =
      { total_logs := 0, severity_breakdown := [], source_breakdown := [],
        trend_data := [], date_range := (some 1, some 0) } ∧
    get_log_trend 0 ⟨some 1, some 0, none, none⟩ false [svcLog] = [] ∧
    export_logs_csv ⟨some 1, some 0, none, none⟩ [svcLog] = [csvHeader] :=
  C8_reversed_dates 0 1 0 [svcLog] none none none 1 20 "timestamp" "desc"
    .timestamp false (by decide) (by decide)

-- ### Claim C6

/-- C6: the list operation returns at most pageSize items, the items are
the slice at offset (page-1)*pageSize of the ordered filtered sequence,
the total is the count of the same filtered sequence, and totalPages is
the least n with total ≤ n * pageSize, i.e. the ceiling of
total / pageSize. -/
theorem C6_list_pagination (f : ListFilter) (page page_size : Nat)
    (sort_by sort_order : String) (store : List Log) (c : SortCol)
    (hsort : getattrLog sort_by = .col c) (hpage : 1 ≤ page)
    (hps1 : 1 ≤ page_size) (hps2 : page_size ≤ 100) :
    ∃ r, list_logs f page page_size sort_by sort_order store = .ok r ∧
      r.items.length ≤ page_size ∧
      r.total = (store.filter (listPred f)).length ∧
      r.items = ((List.insertionSort (listSortRel c (sortIsAsc sort_order))
          (store.filter (listPred f))).drop ((page - 1) * page_size)).take
          page_size ∧
      r.page = page ∧ r.page_size = page_size ∧
      r.total ≤ r.total_pages * page_size ∧
      (∀ n, r.total ≤ n * page_size → r.total_pages ≤ n) := by
  have hps0 : 0 < page_size := hps1
  have hkey : ∀ t n : Nat, (t + page_size - 1) / page_size ≤ n ↔
      t ≤ page_size * n := by
    intro t n
    have h := ceilDiv_le_iff_le_mul (α := ℕ) hps0 (b := t) (c := n)
    rwa [Nat.ceilDiv_eq_add_pred_div] at h
  simp only [list_logs, hsort]
  refine ⟨_, rfl, ?_, rfl, rfl, rfl, rfl, ?_, ?_⟩
  · simpa using List.length_take_le _ _
  · have h := (hkey (store.filter (listPred f)).length
      (((store.filter (listPred f)).length + page_size - 1) / page_size)).mp
      le_rfl
    simpa [Nat.mul_comm] using h
  · intro n hn
    exact (hkey (store.filter (listPred f)).length n).mpr
      (by simpa [Nat.mul_comm] using hn)

/-- C6: witness at a concrete two-row store, first page of size 20. -/
theorem C6_witness :
    ∃ r, list_logs
        { start_date := none, end_date := none, severity := none,
          source := none, search := none } 1 20 "timestamp" "desc"
        [svcLog, oldLog] = .ok r ∧
      r.items.length ≤ 20 ∧
      r.total = ([svcLog, oldLog].filter (listPred
        { start_date := none, end_date := none, severity := none,
          source := none, search := none })).length ∧
      r.items = ((List.insertionSort (listSortRel .timestamp (sortIsAsc "desc"))
          ([svcLog, oldLog].filter (listPred
            { start_date := none, end_date := none, severity := none,
              source := none, search := none }))).drop ((1 - 1) * 20)).take 20 ∧
      r.page = 1 ∧ r.page_size = 20 ∧
      r.total ≤ r.total_pages * 20 ∧
      (∀ n, r.total ≤ n * 20 → r.total_pages ≤ n) :=
  C6_list_pagination
    { start_date := none, end_date := none, severity := none,
      source := none, search := none } 1 20 "timestamp" "desc"
    [svcLog, oldLog] .timestamp (by decide) (by decide) (by decide) (by decide)

-- ### Claim C2

/-- C2: counterexample.  The claim asserts the same set is selected by
list, stats, trend and export under one shared filter assignment.  With a
source filter the predicates differ: list matches source by
case-insensitive containment while export (like stats and trend) matches
it by equality, so source svc selects the svc-a row in list but not in
export, and the export CSV has no data row while the list total is 1. -/
theorem C2_counterexample :
    [svcLog].filter (listPred
      { start_date := none, end_date := none, severity := none,
        source := some "svc", search := none }) = [svcLog] ∧
    [svcLog].filter (exportPred
      { start_date := none, end_date := none, severity := none,
        source := some "svc" }) = [] ∧
    [svcLog].filter (listPred
        { start_date := none, end_date := none, severity := none,
          source := some "svc", search := none })
      ≠ [svcLog].filter (exportPred
        { start_date := none, end_date := none, severity := none,
          source := some "svc" }) ∧
    (∃ r, list_logs
        { start_date := none, end_date := none, severity := none,
          source := some "svc", search := none } 1 20 "timestamp" "desc"
        [svcLog] = .ok r ∧ r.total = 1) ∧
    export_logs_csv
      { start_date := none, end_date := none, severity := none,
        source := some "svc" } [svcLog] = [csvHeader] := by
  refine ⟨by decide, by decide, by decide, ⟨_, rfl, by decide⟩, by decide⟩

/-- C2: amended claim.  When the source filter is absent the operations do
share one predicate: list (with no search) and export select the same set,
stats selects the same set when severity is also absent (stats accepts no
severity input), and trend selects the same set when additionally at least
one date bound is supplied (with no date bound trend adds an implicit
last-30-days restriction).  The export CSV data-row count then equals the
list total, and the CSV's first record is exactly the header
ID,Timestamp,Severity,Source,Message.  When a source filter is supplied,
list selects by case-insensitive containment while stats, trend and export
select by equality, and the sets can differ. -/
theorem C2_amended (now : Int) (store : List Log) (s e : Option Int)
    (sev : Option LogSeverity) :
    store.filter (listPred
        { start_date := s, end_date := e, severity := sev,
          source := none, search := none })
      = store.filter (exportPred
        { start_date := s, end_date := e, severity := sev, source := none }) ∧
    store.filter (listPred
        { start_date := s, end_date := e, severity := none,
          source := none, search := none })
      = store.filter (statsPred
        { start_date := s, end_date := e, source := none }) ∧
    ((s.isSome || e.isSome) = true →
      store.filter (listPred
          { start_date := s, end_date := e, severity := sev,
            source := none, search := none })
        = store.filter (trendPred now
          { start_date := s, end_date := e, severity := sev, source := none })) ∧
    (∀ page page_size sort_by sort_order r,
      list_logs
        { start_date := s, end_date := e, severity := sev,
          source := none, search := none } page page_size sort_by sort_order
        store = .ok r →
      (export_logs_csv
        { start_date := s, end_date := e, severity := sev, source := none }
        store).length = r.total + 1) ∧
    (export_logs_csv
      { start_date := s, end_date := e, severity := sev, source := none }
      store).head? = some csvHeader ∧
    String.intercalate "," csvHeader = "ID,Timestamp,Severity,Source,Message" := by
  have hpred1 : ∀ l, listPred
      { start_date := s, end_date := e, severity := sev,
        source := none, search := none } l
      = exportPred
        { start_date := s, end_date := e, severity := sev, source := none } l := by
    intro l
    simp [listPred, exportPred]
  have h1 : store.filter (listPred
      { start_date := s, end_date := e, severity := sev,
        source := none, search := none })
      = store.filter (exportPred
        { start_date := s, end_date := e, severity := sev, source := none }) :=
    List.filter_congr (fun l _ => hpred1 l)
  refine ⟨h1, ?_, ?_, ?_, ?_, ?_⟩
  · exact List.filter_congr (fun l _ => by simp [listPred, statsPred])
  · intro hdates
    refine List.filter_congr (fun l _ => ?_)
    cases s <;> cases e <;> simp_all [listPred, trendPred]
  · intro page page_size sort_by sort_order r hok
    cases hattr : getattrLog sort_by with
    | col c =>
      simp only [list_logs, hattr] at hok
      simp only [Except.ok.injEq] at hok
      subst hok
      simp [export_logs_csv, h1.symm]
    | nonColumn name =>
      simp only [list_logs, hattr] at hok
      exact absurd hok (by simp)
  · simp [export_logs_csv]
  · decide

/-- C2: witness — a concrete filter with a date bound and no source, where
list and trend agree, and the export CSV of one matching row has the
header first and one data row (list total 1 plus the header). -/
theorem C2_witness :
    [svcLog].filter (listPred
        { start_date := some 0, end_date := none, severity := none,
          source := none, search := none })
      = [svcLog].filter (trendPred 0
        { start_date := some 0, end_date := none, severity := none,
          source := none }) ∧
    (export_logs_csv
      { start_date := some 0, end_date := none, severity := none,
        source := none } [svcLog]).head? = some csvHeader ∧
    (export_logs_csv
      { start_date := some 0, end_date := none, severity := none,
        source := none } [svcLog]).length = 2 := by
  have h := C2_amended 0 [svcLog] (some 0) none none
  refine ⟨h.2.2.1 (by decide), h.2.2.2.2.1, ?_⟩
  exact h.2.2.2.1 1 20 "timestamp" "desc"
    { items := [svcLog], total := 1, page := 1, page_size := 20,
      total_pages := 1 } rfl

-- ### Claim C1

theorem trendSeriesOf_dates_sorted (ls : List Log) :
    ((trendSeriesOf ls).map Prod.fst).Sorted (· ≤ ·) := by
  unfold trendSeriesOf
  have h := List.sorted_insertionSort (r := dayAscRel)
    (((ls.map (fun l => dayOf l.timestamp)).dedup).map
      (fun d => (d, ls.countP (fun l => decide (dayOf l.timestamp = d)))))
  exact List.Pairwise.map Prod.fst (fun a b hab => hab) h

/-- C1: counterexample.  The claim asserts the stats trendData is
restricted to the last 30 days whenever no date filter is supplied,
regardless of a source filter.  The handler applies the 30-day default
only when the conditions list is empty, and a supplied source makes it
nonempty: at call time 8640000 (day 100) with only source a supplied, a
row of timestamp 0 (day 0, far outside the window) is in the trend base
and the series reports day 0. -/
theorem C1_counterexample :
    oldLog ∈ statsTrendBase 8640000
      { start_date := none, end_date := none, source := some "a" } [oldLog] ∧
    oldLog.timestamp < 8640000 - thirtyDays ∧
    (get_log_stats 8640000
      { start_date := none, end_date := none, source := some "a" }
      [oldLog]).trend_data = [(0, 1)] := by
  refine ⟨by decide, by decide, by decide⟩

/-- C1: amended claim.  In the stats operation the implicit last-30-days
restriction of trendData applies only when no filter at all is supplied
(no startDate, no endDate and no source); a source filter alone suppresses
it.  When a date bound is supplied, trendData spans exactly the supplied
range, and the series is always ordered ascending by date. -/
theorem C1_amended (now : Int) (f : StatsFilter) (store : List Log) :
    (f.start_date = none → f.end_date = none → f.source = none →
      ∀ l ∈ statsTrendBase now f store, now - thirtyDays ≤ l.timestamp) ∧
    (∀ d, f.start_date = some d →
      ∀ l ∈ statsTrendBase now f store, d ≤ l.timestamp) ∧
    (∀ d, f.end_date = some d →
      ∀ l ∈ statsTrendBase now f store, l.timestamp ≤ d) ∧
    ((get_log_stats now f store).trend_data.map Prod.fst).Sorted (· ≤ ·) := by
  obtain ⟨fs, fe, fsrc⟩ := f
  refine ⟨?_, ?_, ?_, ?_⟩
  · intro h1 h2 h3 l hl
    subst h1
    subst h2
    subst h3
    unfold statsTrendBase at hl
    rw [if_neg (by simp [statsHasConditions])] at hl
    rw [List.mem_filter] at hl
    simpa using hl.2
  · intro d hd l hl
    subst hd
    unfold statsTrendBase at hl
    rw [if_pos (by simp [statsHasConditions])] at hl
    rw [List.mem_filter] at hl
    have h2 := hl.2
    simp only [statsPred, Bool.and_eq_true, decide_eq_true_eq] at h2
    exact h2.1.1
  · intro d hd l hl
    subst hd
    unfold statsTrendBase at hl
    rw [if_pos (by simp [statsHasConditions])] at hl
    rw [List.mem_filter] at hl
    have h2 := hl.2
    simp only [statsPred, Bool.and_eq_true, decide_eq_true_eq] at h2
    exact h2.1.2
  · simp only [get_log_stats]
    exact trendSeriesOf_dates_sorted _

/-- C1: witness — with no filter at all the trend base of a call at time
8640000 keeps only rows from the last 30 days, and a date-filtered series
is ordered ascending. -/
theorem C1_witness :
    (∀ l ∈ statsTrendBase 8640000
        { start_date := none, end_date := none, source := none }
        [recentLog, oldLog], 8640000 - thirtyDays ≤ l.timestamp) ∧
    (∀ l ∈ statsTrendBase 8640000
        { start_date := some 0, end_date := none, source := none }
        [recentLog, oldLog], (0 : Int) ≤ l.timestamp) ∧
    ((get_log_stats 8640000
        { start_date := none, end_date := none, source := none }
        [recentLog, oldLog]).trend_data.map Prod.fst).Sorted (· ≤ ·) := by
  refine ⟨(C1_amended 8640000
      { start_date := none, end_date := none, source := none }
      [recentLog, oldLog]).1 rfl rfl rfl,
    (C1_amended 8640000
      { start_date := some 0, end_date := none, source := none }
      [recentLog, oldLog]).2.1 0 rfl,
    (C1_amended 8640000
      { start_date := none, end_date := none, source := none }
      [recentLog, oldLog]).2.2.2⟩

-- ### Claim C10

theorem sum_map_filter_eq {γ : Type} (g : γ → Nat) (q : γ → Bool) :
    ∀ L : List γ, (∀ a ∈ L, q a = false → g a = 0) →
      ((L.filter q).map g).sum = (L.map g).sum
  | [], _ => rfl
  | a :: as, h => by
    have ih := sum_map_filter_eq g q as
      (fun x hx => h x (List.mem_cons_of_mem a hx))
    by_cases ha : q a = true
    · simp [List.filter_cons, ha, ih]
    · have ha0 : g a = 0 := h a (List.mem_cons_self a as) (by simpa using ha)
      simp [List.filter_cons, ha, ih, ha0]

theorem countP_sev_total : ∀ ls : List Log,
    (allSeverities.map (fun s => ls.countP (fun l => decide (l.severity = s)))).sum
      = ls.length
  | [] => rfl
  | l :: ls => by
    have ih := countP_sev_total ls
    simp only [allSeverities, List.map_cons, List.map_nil, List.sum_cons,
      List.sum_nil, List.countP_cons, List.length_cons] at *
    cases hsev : l.severity <;> simp [hsev] <;> omega

theorem severityBreakdown_sum (ls : List Log) :
    ((severityBreakdownOf ls).map Prod.snd).sum = ls.length := by
  unfold severityBreakdownOf
  have hperm := List.perm_insertionSort countDescRel
    ((allSeverities.filter
        (fun s => ls.any (fun l => decide (l.severity = s)))).map
      (fun s => (s.value, ls.countP (fun l => decide (l.severity = s)))))
  rw [(hperm.map Prod.snd).sum_eq]
  rw [List.map_map]
  have hstep : ((allSeverities.filter
      (fun s => ls.any (fun l => decide (l.severity = s)))).map
        (fun s => ls.countP (fun l => decide (l.severity = s)))).sum
      = (allSeverities.map
        (fun s => ls.countP (fun l => decide (l.severity = s)))).sum := by
    apply sum_map_filter_eq
    intro s _ hq
    rw [List.countP_eq_zero]
    intro a ha
    rw [List.any_eq_false] at hq
    exact hq a ha
  calc ((allSeverities.filter
      (fun s => ls.any (fun l => decide (l.severity = s)))).map
        (Prod.snd ∘ fun s =>
          (s.value, ls.countP (fun l => decide (l.severity = s))))).sum
      = ((allSeverities.filter
          (fun s => ls.any (fun l => decide (l.severity = s)))).map
            (fun s => ls.countP (fun l => decide (l.severity = s)))).sum := rfl
    _ = (allSeverities.map
          (fun s => ls.countP (fun l => decide (l.severity = s)))).sum := hstep
    _ = ls.length := countP_sev_total ls

/-- C10: the counts of the severityBreakdown returned by the stats
operation always sum to totalLogs: both are computed over the same
filtered set, and every row has exactly one severity. -/
theorem C10_severity_sum (now : Int) (f : StatsFilter) (store : List Log) :
    (((get_log_stats now f store).severity_breakdown).map Prod.snd).sum
      = (get_log_stats now f store).total_logs := by
  simp only [get_log_stats]
  exact severityBreakdown_sum _

end LogsDashboard
